import Mathlib

/-!
Verification of the long-mode register file and REX prefix decoding
of `src/cpu/longmode.rs`.

Modelling conventions:
* Machine integers (`u8`, `u16`, `u32`, `u64`, `usize`) are `Nat`; a value's
  range is carried as a hypothesis where a theorem needs it, and every mask
  the source applies (`& 0xffff_ffff`, `& 0xf`, ...) appears literally.
  The Rust complement constants are written out: `!0xffffu64` is
  `0xffffffffffff0000`, `!0xffu64` is `0xffffffffffffff00`, and
  `!(0xffu64 << 8)` is `0xffffffffffff00ff`.
* Rust array indexing `self.regs[n]` panics when `n` is out of bounds, so
  slot access is modelled fallibly (`Option`): `slotAt?`/`setSlot?` return
  `none` exactly on the out-of-bounds branch.  The accessors are then built
  from these, and their totality (the panic branch is unreachable) is a
  theorem rather than an assumption.
-/

namespace Longmode

/-- The register file of `longmode.rs`: 16 general purpose registers
`rax..r15` stored as 64-bit unsigned values, plus the 64-bit `rflags`. -/
structure Registers where
  regs : Fin 16 → Nat
  rflags : Nat

/-- `Registers::new()`: all registers and `rflags` zero. -/
def Registers.new : Registers := ⟨fun _ => 0, 0⟩

/-- Reading slot `n` of the register array, as the code performs it:
`self.regs[n]` yields the slot when `n` is in bounds and panics (`none`)
otherwise. -/
def Registers.slotAt? (s : Registers) (n : Nat) : Option Nat :=
  if h : n < 16 then some (s.regs ⟨n, h⟩) else none

/-- Writing slot `n` of the register array: `self.regs[n] = val` updates the
slot when `n` is in bounds and panics (`none`) otherwise. -/
def Registers.setSlot? (s : Registers) (n val : Nat) : Option Registers :=
  if h : n < 16 then some { s with regs := Function.update s.regs ⟨n, h⟩ val }
  else none

/-- `Registers::get_r64`: `self.regs[idx & 0xf]`. -/
def Registers.get_r64 (s : Registers) (idx : Nat) : Option Nat :=
  s.slotAt? (idx &&& 0xf)

/-- `Registers::set_r64`: `self.regs[idx & 0xf] = val`. -/
def Registers.set_r64 (s : Registers) (idx val : Nat) : Option Registers :=
  s.setSlot? (idx &&& 0xf) val

/-- `Registers::get_r32`: `(self.regs[idx & 0xf] & 0xffff_ffff) as u32`. -/
def Registers.get_r32 (s : Registers) (idx : Nat) : Option Nat :=
  (s.slotAt? (idx &&& 0xf)).map (· &&& 0xffffffff)

/-- `Registers::set_r32`: the whole slot is replaced by
`(val as u64) & 0xffff_ffff`. -/
def Registers.set_r32 (s : Registers) (idx val : Nat) : Option Registers :=
  s.setSlot? (idx &&& 0xf) (val &&& 0xffffffff)

/-- `Registers::get_r16`: `(self.regs[idx & 0xf] & 0xffff) as u16`. -/
def Registers.get_r16 (s : Registers) (idx : Nat) : Option Nat :=
  (s.slotAt? (idx &&& 0xf)).map (· &&& 0xffff)

/-- `Registers::set_r16`: read-modify-write,
`high = self.regs[i] & !0xffffu64; self.regs[i] = high | ((val as u64) & 0xffff)`. -/
def Registers.set_r16 (s : Registers) (idx val : Nat) : Option Registers :=
  (s.slotAt? (idx &&& 0xf)).bind fun cur =>
    s.setSlot? (idx &&& 0xf) ((cur &&& 0xffffffffffff0000) ||| (val &&& 0xffff))

/-- `Registers::get_r8l`: `(self.regs[idx & 0xf] & 0xff) as u8`. -/
def Registers.get_r8l (s : Registers) (idx : Nat) : Option Nat :=
  (s.slotAt? (idx &&& 0xf)).map (· &&& 0xff)

/-- `Registers::set_r8l`: read-modify-write,
`high = self.regs[i] & !0xffu64; self.regs[i] = high | ((val as u64) & 0xff)`. -/
def Registers.set_r8l (s : Registers) (idx val : Nat) : Option Registers :=
  (s.slotAt? (idx &&& 0xf)).bind fun cur =>
    s.setSlot? (idx &&& 0xf) ((cur &&& 0xffffffffffffff00) ||| (val &&& 0xff))

/-- `Registers::get_r8h`: `((self.regs[i] >> 8) & 0xff) as u8`. -/
def Registers.get_r8h (s : Registers) (idx : Nat) : Option Nat :=
  (s.slotAt? (idx &&& 0xf)).map (fun r => (r >>> 8) &&& 0xff)

/-- `Registers::set_r8h`: read-modify-write,
`low = self.regs[i] & !(0xffu64 << 8); self.regs[i] = low | (((val as u64) & 0xff) << 8)`. -/
def Registers.set_r8h (s : Registers) (idx val : Nat) : Option Registers :=
  (s.slotAt? (idx &&& 0xf)).bind fun cur =>
    s.setSlot? (idx &&& 0xf) ((cur &&& 0xffffffffffff00ff) ||| ((val &&& 0xff) <<< 8))

/-- The REX prefix: `w`, `r`, `x`, `b` extension bits. -/
structure Rex where
  w : Bool
  r : Bool
  x : Bool
  b : Bool
deriving DecidableEq, Repr

/-- `Rex::from_byte`: bytes in `0x40..=0x4f` decode to the four low-nibble
bits, every other byte yields `None`. -/
def Rex.from_byte (b : Nat) : Option Rex :=
  if 0x40 ≤ b ∧ b ≤ 0x4f then
    some ⟨b &&& 0x08 != 0, b &&& 0x04 != 0, b &&& 0x02 != 0, b &&& 0x01 != 0⟩
  else
    none

/-- `parse_prefixes`: starting at position 0, if the stream is non-empty and
its first byte decodes as a REX prefix, return it with one byte consumed;
otherwise return no REX with zero bytes consumed. -/
def parse_prefixes (stream : List Nat) : Option Rex × Nat :=
  match stream with
  | [] => (none, 0)
  | b :: _ =>
    match Rex.from_byte b with
    | some r => (some r, 1)
    | none => (none, 0)

/-- `DummyCpu::exec_mov_demo` from the test module: write
`0x1122334455667788` to register 0, read it back, write it to register 1. -/
def exec_mov_demo (s : Registers) : Option Registers :=
  (s.set_r64 0 0x1122334455667788).bind fun s1 =>
    (s1.get_r64 0).bind fun val =>
      s1.set_r64 1 val

/-! ### Helper lemmas about the wrapped index -/

theorem and_fifteen_eq_mod (i : Nat) : i &&& 0xf = i % 16 := by
  have h := Nat.and_pow_two_sub_one_eq_mod i 4
  norm_num at h
  exact h

theorem and_fifteen_lt (i : Nat) : i &&& 0xf < 16 := by
  rw [and_fifteen_eq_mod]
  omega

/-- The slot index an accessor at register index `i` addresses. -/
def regIdx (i : Nat) : Fin 16 := ⟨i &&& 0xf, and_fifteen_lt i⟩

theorem slotAt?_wrap (s : Registers) (i : Nat) :
    s.slotAt? (i &&& 0xf) = some (s.regs (regIdx i)) := by
  rw [Registers.slotAt?, dif_pos (and_fifteen_lt i)]
  rfl

theorem setSlot?_wrap (s : Registers) (i v : Nat) :
    s.setSlot? (i &&& 0xf) v
      = some { s with regs := Function.update s.regs (regIdx i) v } := by
  rw [Registers.setSlot?, dif_pos (and_fifteen_lt i)]
  rfl

/-! ### Bit characterizations of the mask constants -/

theorem testBit_mask_ffff (k : Nat) : Nat.testBit 0xffff k = decide (k < 16) := by
  have h : (0xffff : Nat) = 2 ^ 16 - 1 := by norm_num
  rw [h, Nat.testBit_two_pow_sub_one]

theorem testBit_mask_ff (k : Nat) : Nat.testBit 0xff k = decide (k < 8) := by
  have h : (0xff : Nat) = 2 ^ 8 - 1 := by norm_num
  rw [h, Nat.testBit_two_pow_sub_one]

theorem testBit_mask_hi48 (k : Nat) :
    Nat.testBit 0xffffffffffff0000 k = (decide (16 ≤ k) && decide (k < 64)) := by
  have h : (0xffffffffffff0000 : Nat) = (2 ^ 48 - 1) <<< 16 := by
    norm_num [Nat.shiftLeft_eq]
  rw [h, Nat.testBit_shiftLeft, Nat.testBit_two_pow_sub_one]
  by_cases h1 : 16 ≤ k
  · simp only [decide_eq_true h1, Bool.true_and]
    rw [decide_eq_decide]
    omega
  · simp [decide_eq_false h1]

theorem testBit_mask_hi56 (k : Nat) :
    Nat.testBit 0xffffffffffffff00 k = (decide (8 ≤ k) && decide (k < 64)) := by
  have h : (0xffffffffffffff00 : Nat) = (2 ^ 56 - 1) <<< 8 := by
    norm_num [Nat.shiftLeft_eq]
  rw [h, Nat.testBit_shiftLeft, Nat.testBit_two_pow_sub_one]
  by_cases h1 : 8 ≤ k
  · simp only [decide_eq_true h1, Bool.true_and]
    rw [decide_eq_decide]
    omega
  · simp [decide_eq_false h1]

theorem testBit_mask_not8h (k : Nat) :
    Nat.testBit 0xffffffffffff00ff k
      = ((decide (16 ≤ k) && decide (k < 64)) || decide (k < 8)) := by
  have h : (0xffffffffffff00ff : Nat) = 0xffffffffffff0000 ||| 0xff := by decide
  rw [h, Nat.testBit_lor, testBit_mask_hi48, testBit_mask_ff]

/-! ### Claim theorems -/

/-- C7: for every index `i` and every 64-bit value `v`, writing the 64-bit
form of `v` at `i` and then reading the 64-bit form at `i` returns exactly
`v`, for every prior state. -/
theorem set_r64_get_r64_roundtrip (s : Registers) (i v : Nat) (hv : v < 2 ^ 64) :
    (s.set_r64 i v).bind (fun t => t.get_r64 i) = some v := by
  rw [Registers.set_r64, setSlot?_wrap, Option.some_bind, Registers.get_r64,
    slotAt?_wrap]
  simp [Function.update_same]

/-- Witness for C7 at a concrete state, index and value. -/
theorem set_r64_get_r64_roundtrip_witness :
    (Registers.new.set_r64 3 0x1122334455667788).bind (fun t => t.get_r64 3)
      = some 0x1122334455667788 :=
  set_r64_get_r64_roundtrip Registers.new 3 0x1122334455667788 (by norm_num)

/-- C9: every one of the ten accessors is total at every index value: the
wrapped index `idx & 0xf` is always in bounds, so the out-of-bounds (panic)
branch of the slot access is unreachable and each operation returns `some`. -/
theorem accessors_total (s : Registers) (i v : Nat) :
    i &&& 0xf < 16 ∧
    (s.get_r64 i).isSome ∧ (s.set_r64 i v).isSome ∧
    (s.get_r32 i).isSome ∧ (s.set_r32 i v).isSome ∧
    (s.get_r16 i).isSome ∧ (s.set_r16 i v).isSome ∧
    (s.get_r8l i).isSome ∧ (s.set_r8l i v).isSome ∧
    (s.get_r8h i).isSome ∧ (s.set_r8h i v).isSome := by
  refine ⟨and_fifteen_lt i, ?_, ?_, ?_, ?_, ?_, ?_, ?_, ?_, ?_, ?_⟩ <;>
    simp [Registers.get_r64, Registers.set_r64, Registers.get_r32,
      Registers.set_r32, Registers.get_r16, Registers.set_r16,
      Registers.get_r8l, Registers.set_r8l, Registers.get_r8h,
      Registers.set_r8h, slotAt?_wrap, setSlot?_wrap]

/-- C4: every accessor wraps its index modulo 16 (`idx & 0xf = idx % 16`), so
for every width class the operations at index `i` and at index `i + 16`
address the same slot and are the same operation; no index is rejected. -/
theorem accessors_alias_mod16 (s : Registers) (i v : Nat) :
    (i &&& 0xf = i % 16) ∧ regIdx (i + 16) = regIdx i ∧
    s.get_r64 (i + 16) = s.get_r64 i ∧ s.set_r64 (i + 16) v = s.set_r64 i v ∧
    s.get_r32 (i + 16) = s.get_r32 i ∧ s.set_r32 (i + 16) v = s.set_r32 i v ∧
    s.get_r16 (i + 16) = s.get_r16 i ∧ s.set_r16 (i + 16) v = s.set_r16 i v ∧
    s.get_r8l (i + 16) = s.get_r8l i ∧ s.set_r8l (i + 16) v = s.set_r8l i v ∧
    s.get_r8h (i + 16) = s.get_r8h i ∧ s.set_r8h (i + 16) v = s.set_r8h i v := by
  have hwrap : (i + 16) &&& 0xf = i &&& 0xf := by
    rw [and_fifteen_eq_mod, and_fifteen_eq_mod]
    omega
  refine ⟨and_fifteen_eq_mod i, ?_, ?_, ?_, ?_, ?_, ?_, ?_, ?_, ?_, ?_, ?_⟩ <;>
    simp only [regIdx, Registers.get_r64, Registers.set_r64, Registers.get_r32,
      Registers.set_r32, Registers.get_r16, Registers.set_r16,
      Registers.get_r8l, Registers.set_r8l, Registers.get_r8h,
      Registers.set_r8h, hwrap]

/-- C5: the REX decode is total over all 256 byte values and returns a value
iff the byte lies in the contiguous range `0x40..=0x4f`; `0x48` decodes with
only `w` set, `0x4f` with all four bits set, and `0x39` to absent. -/
theorem from_byte_range_spec :
    (∀ b, b < 256 → ((Rex.from_byte b).isSome ↔ (0x40 ≤ b ∧ b ≤ 0x4f))) ∧
    Rex.from_byte 0x48 = some ⟨true, false, false, false⟩ ∧
    Rex.from_byte 0x4f = some ⟨true, true, true, true⟩ ∧
    Rex.from_byte 0x39 = none := by
  refine ⟨?_, by decide, by decide, by decide⟩
  intro b _
  rw [Rex.from_byte]
  split <;> simp_all

/-- Witness for C5's quantified part at the concrete byte `0x48`. -/
theorem from_byte_range_spec_witness :
    (Rex.from_byte 0x48).isSome ↔ (0x40 ≤ 0x48 ∧ 0x48 ≤ 0x4f) :=
  from_byte_range_spec.1 0x48 (by norm_num)

/-- C10: on the valid range `0x40..=0x4f` the decoded bits are exactly the
low nibble of the byte (`w` is bit 3, `r` bit 2, `x` bit 1, `b` bit 0), and
the decode is injective there. -/
theorem from_byte_low_nibble :
    (∀ b, b ≤ 0x4f → 0x40 ≤ b →
      Rex.from_byte b
        = some ⟨b.testBit 3, b.testBit 2, b.testBit 1, b.testBit 0⟩) ∧
    (∀ b, b ≤ 0x4f → 0x40 ≤ b → ∀ c, c ≤ 0x4f → 0x40 ≤ c →
      Rex.from_byte b = Rex.from_byte c → b = c) := by
  constructor
  · decide
  · decide

/-- Witness for C10 at the concrete byte `0x4a`. -/
theorem from_byte_low_nibble_witness :
    Rex.from_byte 0x4a
      = some ⟨Nat.testBit 0x4a 3, Nat.testBit 0x4a 2,
              Nat.testBit 0x4a 1, Nat.testBit 0x4a 0⟩ :=
  from_byte_low_nibble.1 0x4a (by norm_num) (by norm_num)

/-- C1: after the 32-bit write of `v` at `i`, the 64-bit read at `i` returns
`v` zero-extended (all bits at position 32 and above of the slot are 0),
regardless of the slot's prior contents. -/
theorem set_r32_zero_extends (s : Registers) (i v : Nat) (hv : v < 2 ^ 32) :
    (s.set_r32 i v).bind (fun t => t.get_r64 i) = some v ∧
    (∀ k, 32 ≤ k →
      (s.set_r32 i v).map (fun t => (t.regs (regIdx i)).testBit k)
        = some false) := by
  have hmask : v &&& 0xffffffff = v := by
    have h := Nat.and_pow_two_sub_one_eq_mod v 32
    norm_num at h
    rw [h]
    exact Nat.mod_eq_of_lt (by norm_num at hv ⊢; omega)
  rw [Registers.set_r32, setSlot?_wrap]
  constructor
  · rw [Option.some_bind, Registers.get_r64, slotAt?_wrap]
    simp [Function.update_same, hmask]
  · intro k hk
    simp only [Option.map_some', Function.update_same, Option.some.injEq]
    rw [hmask]
    exact Nat.testBit_lt_two_pow
      (lt_of_lt_of_le hv (Nat.pow_le_pow_right (by norm_num) hk))

/-- Witness for C1 at a concrete state, index, value and bit position. -/
theorem set_r32_zero_extends_witness :
    (Registers.new.set_r32 5 0xdeadbeef).bind (fun t => t.get_r64 5)
        = some 0xdeadbeef ∧
    (Registers.new.set_r32 5 0xdeadbeef).map
        (fun t => (t.regs (regIdx 5)).testBit 40) = some false :=
  ⟨(set_r32_zero_extends Registers.new 5 0xdeadbeef (by norm_num)).1,
   (set_r32_zero_extends Registers.new 5 0xdeadbeef (by norm_num)).2 40
     (by norm_num)⟩

/-- C2: the 16-bit write of `v` at `i` replaces only bits 0–15 of the
addressed slot and preserves bits 16–63 unchanged, for every prior state. -/
theorem set_r16_preserves_high (s : Registers) (i v k : Nat) :
    (k < 16 →
      (s.set_r16 i v).map (fun t => (t.regs (regIdx i)).testBit k)
        = some (v.testBit k)) ∧
    (16 ≤ k → k < 64 →
      (s.set_r16 i v).map (fun t => (t.regs (regIdx i)).testBit k)
        = some ((s.regs (regIdx i)).testBit k)) := by
  rw [Registers.set_r16, slotAt?_wrap, Option.some_bind, setSlot?_wrap]
  constructor
  · intro hk
    simp only [Option.map_some', Function.update_same, Option.some.injEq]
    simp [Nat.testBit_lor, Nat.testBit_land, testBit_mask_hi48,
      testBit_mask_ffff,
      decide_eq_true hk, decide_eq_false (show ¬(16 ≤ k) by omega)]
  · intro hk1 hk2
    simp only [Option.map_some', Function.update_same, Option.some.injEq]
    simp [Nat.testBit_lor, Nat.testBit_land, testBit_mask_hi48,
      testBit_mask_ffff,
      decide_eq_true hk1, decide_eq_true hk2,
      decide_eq_false (show ¬(k < 16) by omega)]

/-- Witness for C2: the spec's own example, an all-ones slot written with
16-bit 0 keeps bit 20 set. -/
theorem set_r16_preserves_high_witness :
    ((⟨fun _ => 0xffffffffffffffff, 0⟩ : Registers).set_r16 2 0).map
        (fun t => (t.regs (regIdx 2)).testBit 20)
      = some (((⟨fun _ => 0xffffffffffffffff, 0⟩ : Registers).regs
          (regIdx 2)).testBit 20) :=
  (set_r16_preserves_high ⟨fun _ => 0xffffffffffffffff, 0⟩ 2 0 20).2
    (by norm_num) (by norm_num)

/-- C3: the low-byte write at `i` replaces only bits 0–7 and preserves bits
8–63; the high-byte-of-low-16 write at `i` places `v` in bits 8–15 and
preserves bits 0–7 and 16–63, for every prior state. -/
theorem set_r8_frame (s : Registers) (i v k : Nat) :
    (k < 8 →
      (s.set_r8l i v).map (fun t => (t.regs (regIdx i)).testBit k)
        = some (v.testBit k)) ∧
    (8 ≤ k → k < 64 →
      (s.set_r8l i v).map (fun t => (t.regs (regIdx i)).testBit k)
        = some ((s.regs (regIdx i)).testBit k)) ∧
    (8 ≤ k → k < 16 →
      (s.set_r8h i v).map (fun t => (t.regs (regIdx i)).testBit k)
        = some (v.testBit (k - 8))) ∧
    (k < 8 →
      (s.set_r8h i v).map (fun t => (t.regs (regIdx i)).testBit k)
        = some ((s.regs (regIdx i)).testBit k)) ∧
    (16 ≤ k → k < 64 →
      (s.set_r8h i v).map (fun t => (t.regs (regIdx i)).testBit k)
        = some ((s.regs (regIdx i)).testBit k)) := by
  rw [Registers.set_r8l, Registers.set_r8h, slotAt?_wrap, Option.some_bind,
    Option.some_bind, setSlot?_wrap, setSlot?_wrap]
  refine ⟨?_, ?_, ?_, ?_, ?_⟩
  · intro hk
    simp only [Option.map_some', Function.update_same, Option.some.injEq]
    simp [Nat.testBit_lor, Nat.testBit_land, testBit_mask_hi56,
      testBit_mask_ff,
      decide_eq_true hk, decide_eq_false (show ¬(8 ≤ k) by omega)]
  · intro hk1 hk2
    simp only [Option.map_some', Function.update_same, Option.some.injEq]
    simp [Nat.testBit_lor, Nat.testBit_land, testBit_mask_hi56,
      testBit_mask_ff,
      decide_eq_true hk1, decide_eq_true hk2,
      decide_eq_false (show ¬(k < 8) by omega)]
  · intro hk1 hk2
    simp only [Option.map_some', Function.update_same, Option.some.injEq]
    simp [Nat.testBit_lor, Nat.testBit_land, Nat.testBit_shiftLeft,
      testBit_mask_not8h, testBit_mask_ff,
      decide_eq_true hk1, decide_eq_true (show k - 8 < 8 by omega),
      decide_eq_false (show ¬(16 ≤ k) by omega),
      decide_eq_false (show ¬(k < 8) by omega)]
  · intro hk
    simp only [Option.map_some', Function.update_same, Option.some.injEq]
    simp [Nat.testBit_lor, Nat.testBit_land, Nat.testBit_shiftLeft,
      testBit_mask_not8h, testBit_mask_ff,
      decide_eq_true hk, decide_eq_false (show ¬(8 ≤ k) by omega),
      decide_eq_false (show ¬(16 ≤ k) by omega)]
  · intro hk1 hk2
    simp only [Option.map_some', Function.update_same, Option.some.injEq]
    simp [Nat.testBit_lor, Nat.testBit_land, Nat.testBit_shiftLeft,
      testBit_mask_not8h, testBit_mask_ff,
      decide_eq_true hk1, decide_eq_true hk2,
      decide_eq_true (show 8 ≤ k by omega),
      decide_eq_false (show ¬(k < 8) by omega),
      decide_eq_false (show ¬(k - 8 < 8) by omega)]

/-- Witness for C3 at a concrete state: the high-byte write puts bit 4 of
the value at bit 12 of the slot. -/
theorem set_r8_frame_witness :
    ((⟨fun _ => 0xffffffffffffffff, 0⟩ : Registers).set_r8h 1 0xab).map
        (fun t => (t.regs (regIdx 1)).testBit 12)
      = some (Nat.testBit 0xab (12 - 8)) :=
  (set_r8_frame ⟨fun _ => 0xffffffffffffffff, 0⟩ 1 0xab 12).2.2.1
    (by norm_num) (by norm_num)

/-- C8: every width-class write at `i` leaves every slot with a different
wrapped index unchanged, and the 64-bit read-then-write copy demo leaves
register 0 holding its original value while register 1 receives it. -/
theorem writes_frame (s : Registers) (i j v : Nat) (hne : j % 16 ≠ i % 16) :
    (s.set_r64 i v).map (fun t => t.regs (regIdx j))
        = some (s.regs (regIdx j)) ∧
    (s.set_r32 i v).map (fun t => t.regs (regIdx j))
        = some (s.regs (regIdx j)) ∧
    (s.set_r16 i v).map (fun t => t.regs (regIdx j))
        = some (s.regs (regIdx j)) ∧
    (s.set_r8l i v).map (fun t => t.regs (regIdx j))
        = some (s.regs (regIdx j)) ∧
    (s.set_r8h i v).map (fun t => t.regs (regIdx j))
        = some (s.regs (regIdx j)) ∧
    (exec_mov_demo Registers.new).bind (fun t => t.get_r64 0)
        = some 0x1122334455667788 ∧
    (exec_mov_demo Registers.new).bind (fun t => t.get_r64 1)
        = some 0x1122334455667788 := by
  have hji : regIdx j ≠ regIdx i := by
    intro h
    apply hne
    have hv := congrArg Fin.val h
    simpa [regIdx, and_fifteen_eq_mod] using hv
  refine ⟨?_, ?_, ?_, ?_, ?_, by decide, by decide⟩ <;>
    simp only [Registers.set_r64, Registers.set_r32, Registers.set_r16,
      Registers.set_r8l, Registers.set_r8h,
      slotAt?_wrap, setSlot?_wrap, Option.some_bind, Option.map_some',
      Option.some.injEq] <;>
    exact Function.update_noteq hji _ _

/-- Witness for C8: a 64-bit write at index 0 leaves slot 1 unchanged. -/
theorem writes_frame_witness :
    (Registers.new.set_r64 0 5).map (fun t => t.regs (regIdx 1))
      = some (Registers.new.regs (regIdx 1)) :=
  (writes_frame Registers.new 0 1 5 (by decide)).1

/-- C6: the prefix scanner looks at most at the first byte and never fails:
the empty stream yields `(none, 0)`; a stream `b :: rest` yields
`(Rex.from_byte b, 1)` if `b` decodes and `(none, 0)` otherwise, independent
of `rest`; the consumed count is always at most 1. -/
theorem parse_prefixes_spec :
    parse_prefixes [] = (none, 0) ∧
    (∀ b rest, parse_prefixes (b :: rest)
      = (Rex.from_byte b, if (Rex.from_byte b).isSome then 1 else 0)) ∧
    (∀ stream, (parse_prefixes stream).2 ≤ 1) ∧
    (∀ b rest rest', parse_prefixes (b :: rest) = parse_prefixes (b :: rest')) := by
  have hcons : ∀ b (rest : List Nat), parse_prefixes (b :: rest)
      = (Rex.from_byte b, if (Rex.from_byte b).isSome then 1 else 0) := by
    intro b rest
    rw [parse_prefixes]
    cases Rex.from_byte b <;> simp
  refine ⟨rfl, hcons, ?_, ?_⟩
  · intro stream
    cases stream with
    | nil => simp [parse_prefixes]
    | cons b rest =>
      rw [hcons]
      split <;> simp
  · intro b rest rest'
    rw [hcons, hcons]

end Longmode
